import Mathlib

/-!
Verification of the ovector library: a guarded virtual-memory allocator
(source/ovector.cpp) and the overcommit vector container built on it
(include/mgrech/ovector.hpp).

Modelling conventions:
  * size_type (the platform's 64-bit unsigned size type) is modelled as Nat;
    wherever the C++ code can wrap around, the wrap is made explicit with
    percent 2 ^ 64.  The overflow guards inside guarded_alloc keep every
    intermediate value below 2 ^ 64, so plain Nat arithmetic is exact there.
  * Addresses are Nat; a null pointer is Option.none.
  * The operating system call os_guarded_alloc is an oracle parameter
    osAlloc : Nat -> Nat -> Option Nat mapping the two rounded sizes to the
    base address of the reservation (none = allocation failure).
-/

namespace OVector

def size_type_max : Nat := 2 ^ 64 - 1

def page_size : Nat := 4096

/-- ceil_multiple from source/ovector.cpp: round size up to the next multiple of n. -/
def ceil_multiple (size n : Nat) : Nat :=
  (size / n + (if size % n ≠ 0 then 1 else 0)) * n

/-- add_overflows from source/ovector.cpp: does a + b overflow size_type? -/
def add_overflows (a b : Nat) : Bool :=
  decide (size_type_max - b < a)

/-- guarded_alloc from source/ovector.cpp, with the OS reservation call abstracted
as the oracle osAlloc.  Returns the pointer handed to the caller (none = null). -/
def guarded_alloc (osAlloc : Nat → Nat → Option Nat)
    (requestedDataSize requestedGuardSize : Nat) : Option Nat :=
  if requestedDataSize = 0 then
    none
  else if requestedDataSize > size_type_max - page_size + 1 ∨
          requestedGuardSize > size_type_max - page_size + 1 then
    none
  else
    let allocatedDataSize := ceil_multiple requestedDataSize page_size
    let allocatedGuardSize := ceil_multiple requestedGuardSize page_size
    if add_overflows allocatedDataSize allocatedGuardSize then
      none
    else
      match osAlloc allocatedDataSize allocatedGuardSize with
      | none => none
      | some memory => some (memory + (allocatedDataSize - requestedDataSize))

/-- The single os_dealloc call made by guarded_dealloc: which base address is
released and how many bytes. -/
structure OsRelease where
  base : Nat
  length : Nat
deriving DecidableEq

/-- guarded_dealloc from source/ovector.cpp: recompute the rounded sizes and the
base-pointer offset, then release the whole reservation as one unit. -/
def guarded_dealloc (memory requestedDataSize requestedGuardSize : Nat) : OsRelease :=
  let allocatedDataSize := ceil_multiple requestedDataSize page_size
  let allocatedGuardSize := ceil_multiple requestedGuardSize page_size
  let wastedSpace := allocatedDataSize - requestedDataSize
  { base := memory - wastedSpace, length := allocatedDataSize + allocatedGuardSize }

/-- An OS oracle that always grants a reservation at address 0. -/
def osAlwaysZero : Nat → Nat → Option Nat := fun _ _ => some 0

theorem le_ceil_multiple (s n : Nat) (hn : 0 < n) : s ≤ ceil_multiple s n := by
  unfold ceil_multiple
  by_cases h : s % n = 0
  · simp [h, Nat.div_mul_cancel (Nat.dvd_of_mod_eq_zero h)]
  · have h2 := Nat.mod_lt s hn
    simp only [h, ne_eq, not_false_iff, if_pos]
    calc s = n * (s / n) + s % n := (Nat.div_add_mod s n).symm
      _ ≤ n * (s / n) + n := Nat.add_le_add_left (Nat.le_of_lt h2) _
      _ = (s / n + 1) * n := by ring

/-- Destructuring a successful guarded_alloc: the request was nonzero, the OS was
asked for exactly the two page-rounded sizes, and the returned pointer is the
reservation base plus the rounding slack. -/
theorem guarded_alloc_some (osAlloc : Nat → Nat → Option Nat)
    (ds gs p : Nat) (h : guarded_alloc osAlloc ds gs = some p) :
    ds ≠ 0 ∧
    ∃ base, osAlloc (ceil_multiple ds page_size) (ceil_multiple gs page_size) = some base ∧
      p = base + (ceil_multiple ds page_size - ds) := by
  unfold guarded_alloc at h
  split at h
  · exact absurd h (by simp)
  next hds =>
    split at h
    · exact absurd h (by simp)
    dsimp only at h
    split at h
    · exact absurd h (by simp)
    refine ⟨hds, ?_⟩
    cases hos : osAlloc (ceil_multiple ds page_size) (ceil_multiple gs page_size) with
    | none => rw [hos] at h; exact absurd h (by simp)
    | some base =>
        rw [hos] at h
        simp only [Option.some.injEq] at h
        exact ⟨base, rfl, h.symm⟩

/-!
Field-level model of ovector_storage (include/mgrech/ovector.hpp): the three
fields memory, size, max_size.  Element contents are modelled separately below
where a claim needs them.
-/

/-- ovector_storage fields: memory (none = null), size, max_size. -/
structure Storage where
  memory : Option Nat
  size : Nat
  max_size : Nat
deriving DecidableEq

/-- inlined_exchange(ref, value): returns (old value of ref, new value of ref). -/
def inlined_exchange (ref value : α) : α × α := (ref, value)

/-- inlined_swap(lhs, rhs): returns the new values (new lhs, new rhs). -/
def inlined_swap (lhs rhs : α) : α × α := (rhs, lhs)

/-- ovector_storage(size_type max_size) as reached through with_max_size_or_null:
memory = guarded_alloc(max_size * sizeof(T), sizeof(T)) with the multiplication
performed in wrapping 64-bit arithmetic, size = 0, and max_size recorded only if
the allocation succeeded. -/
def storage_create (osAlloc : Nat → Nat → Option Nat) (sizeofT n : Nat) : Storage :=
  let memory := guarded_alloc osAlloc (n * sizeofT % 2 ^ 64) sizeofT
  { memory := memory, size := 0, max_size := if memory.isSome then n else 0 }

/-- ovector_storage move constructor: each field is inlined_exchange from the
source.  Returns (the new object, the moved-from source). -/
def storage_move_ctor (other : Storage) : Storage × Storage :=
  let (m, om) := inlined_exchange other.memory none
  let (s, os) := inlined_exchange other.size 0
  let (x, ox) := inlined_exchange other.max_size 0
  ({ memory := m, size := s, max_size := x }, { memory := om, size := os, max_size := ox })

/-- ovector::operator=(ovector&&) for distinct objects: clear() on the
destination (size := 0, destroying its elements), then the storage
move-assignment, which first deallocates the destination's reservation and then
exchanges each field out of the source.  Returns (new destination, moved-from
source, the reservation base released by the deallocate step, none if the
destination was unbacked). -/
def ovec_move_assign (dst src : Storage) : Storage × Storage × Option Nat :=
  let dst1 : Storage := { dst with size := 0 }
  let released := dst1.memory
  let (m, sm) := inlined_exchange src.memory none
  let (s, ss) := inlined_exchange src.size 0
  let (x, sx) := inlined_exchange src.max_size 0
  ({ memory := m, size := s, max_size := x },
   { memory := sm, size := ss, max_size := sx }, released)

/-- ovector::operator=(ovector&&) when the right-hand side is the object itself:
clear() runs first.  inlined_move is declared with a plain auto return type, so
it returns the storage BY VALUE: a temporary is move-constructed from the
(aliased) storage, taking its fields and exchanging them to the reset values,
and the storage move-assignment then runs with that temporary as its source.
Its deallocate() therefore inspects the already-nulled memory field.  Returns
(the resulting state, the reservation base released by the deallocate step or
none when it saw a null pointer, the reservation base released by the
temporary's destructor or none when the temporary had been emptied). -/
def ovec_self_move_assign (v : Storage) : Storage × Option Nat × Option Nat :=
  let v1 : Storage := { v with size := 0 }
  let (tmp, v2) := storage_move_ctor v1
  let released := v2.memory
  let (m, tm) := inlined_exchange tmp.memory none
  let (s, ts) := inlined_exchange tmp.size 0
  let (x, tx) := inlined_exchange tmp.max_size 0
  let tmp1 : Storage := { memory := tm, size := ts, max_size := tx }
  ({ memory := m, size := s, max_size := x }, released, tmp1.memory)

/-- ovector::swap: inlined_swap on each of the three storage fields. -/
def ovec_swap (a b : Storage) : Storage × Storage :=
  let (am, bm) := inlined_swap a.memory b.memory
  let (asz, bsz) := inlined_swap a.size b.size
  let (ax, bx) := inlined_swap a.max_size b.max_size
  ({ memory := am, size := asz, max_size := ax },
   { memory := bm, size := bsz, max_size := bx })

/-!
Element-level model of ovector, for the claims about element contents.  The
elems list holds the constructed elements in index order, so size() is
elems.length; memory and max_size are as in the field-level model.
-/

/-- ovector with element contents: elems lists the constructed elements at
slots 0 .. elems.length - 1 in index order. -/
structure OVec (α : Type) where
  memory : Option Nat
  elems : List α
  max_size : Nat
deriving DecidableEq

/-- ovector::emplace_back: the element is constructed in place at offset size
(slot index elems.length from data()) and only then is the size incremented.
The constructor outcome is modelled by construct : Option α (none = the
constructor raised a failure, which propagates, leaving the container as it
was).  On success, returns the new state and the slot index of the returned
pointer. -/
def emplace_back (v : OVec α) (construct : Option α) : Except (OVec α) (OVec α × Nat) :=
  let base := v.elems.length
  match construct with
  | none => Except.error v
  | some a => Except.ok ({ v with elems := v.elems ++ [a] }, base)

/-- ovector::clear_impl(std::false_type): if the memory pointer is non-null,
destroy p[i] for i = 0 .. size - 1 in order, then set size to 0.  Returns the
new state and the list of destroyed elements in destruction order. -/
def clear_impl_nontrivial (v : OVec α) : OVec α × List α :=
  match v.memory with
  | none => (v, [])
  | some _ =>
      let s := v.elems.length
      ({ v with elems := [] }, (List.range s).filterMap (fun i => v.elems[i]?))

/-- ovector::clear_impl(std::true_type), taken for trivially destructible T:
set size to 0 without invoking any destructor.  Returns the new state and the
(empty) list of destroyed elements. -/
def clear_impl_trivial (v : OVec α) : OVec α × List α :=
  ({ v with elems := [] }, [])

/-- std::equal(lhs.cbegin(), lhs.cend(), rhs.cbegin()) as called by operator==:
walk the first range, comparing pairwise with beq.  (The C++ call requires the
second range to be at least as long; operator== guards it with the size check.) -/
def std_equal (beq : α → α → Bool) : List α → List α → Bool
  | [], _ => true
  | _ :: _, [] => true
  | a :: as, b :: bs => beq a b && std_equal beq as bs

/-- operator==(ovector const&, ovector const&): size check, then std::equal. -/
def ovec_eq (beq : α → α → Bool) (l r : OVec α) : Bool :=
  l.elems.length == r.elems.length && std_equal beq l.elems r.elems

/-- operator!=(ovector const&, ovector const&): the negation of operator==. -/
def ovec_ne (beq : α → α → Bool) (l r : OVec α) : Bool :=
  !(ovec_eq beq l r)

/-- The documented storage invariant: max_size == 0 iff the base pointer is
null, and size never exceeds max_size. -/
def storage_invariant (v : Storage) : Prop :=
  (v.max_size = 0 ↔ v.memory = none) ∧ v.size ≤ v.max_size

/-- Storage states reachable through the public container operations, each
element operation taken under its stated precondition. -/
inductive Reachable : Storage → Prop where
  | default_ctor : Reachable { memory := none, size := 0, max_size := 0 }
  | with_max_size (osAlloc : Nat → Nat → Option Nat) (sizeofT n : Nat) :
      Reachable (storage_create osAlloc sizeofT n)
  | emplace (v : Storage) (hv : Reachable v) (hm : v.memory ≠ none)
      (hs : v.size < v.max_size) : Reachable { v with size := v.size + 1 }
  | pop (v : Storage) (hv : Reachable v) (hs : v.size ≠ 0) :
      Reachable { v with size := v.size - 1 }
  | clear (v : Storage) (hv : Reachable v) : Reachable { v with size := 0 }
  | grow (v : Storage) (n : Nat) (hv : Reachable v) (hn : v.size + n ≤ v.max_size) :
      Reachable { v with size := v.size + n }
  | shrink (v : Storage) (n : Nat) (hv : Reachable v) (hn : n ≤ v.size) :
      Reachable { v with size := v.size - n }
  | move_ctor_dst (v : Storage) (hv : Reachable v) : Reachable (storage_move_ctor v).1
  | move_ctor_src (v : Storage) (hv : Reachable v) : Reachable (storage_move_ctor v).2
  | move_assign_dst (d s : Storage) (hd : Reachable d) (hs : Reachable s) :
      Reachable (ovec_move_assign d s).1
  | move_assign_src (d s : Storage) (hd : Reachable d) (hs : Reachable s) :
      Reachable (ovec_move_assign d s).2.1
  | self_move (v : Storage) (hv : Reachable v) : Reachable (ovec_self_move_assign v).1
  | swap_left (a b : Storage) (ha : Reachable a) (hb : Reachable b) :
      Reachable (ovec_swap a b).1
  | swap_right (a b : Storage) (ha : Reachable a) (hb : Reachable b) :
      Reachable (ovec_swap a b).2

theorem guarded_alloc_zero (osAlloc : Nat → Nat → Option Nat) (gs : Nat) :
    guarded_alloc osAlloc 0 gs = none := by
  simp [guarded_alloc]

theorem storage_create_max_size_ne_zero (osAlloc : Nat → Nat → Option Nat)
    (sizeofT n : Nat) (h : (storage_create osAlloc sizeofT n).memory ≠ none) :
    n ≠ 0 := by
  intro hn
  subst hn
  simp [storage_create, guarded_alloc_zero] at h

theorem storage_create_def (osAlloc : Nat → Nat → Option Nat) (sizeofT n : Nat) :
    storage_create osAlloc sizeofT n =
      { memory := guarded_alloc osAlloc (n * sizeofT % 2 ^ 64) sizeofT, size := 0,
        max_size := if (guarded_alloc osAlloc (n * sizeofT % 2 ^ 64) sizeofT).isSome
                    then n else 0 } := rfl

theorem storage_create_invariant (osAlloc : Nat → Nat → Option Nat) (sizeofT n : Nat) :
    storage_invariant (storage_create osAlloc sizeofT n) := by
  rw [storage_create_def]
  cases hm : guarded_alloc osAlloc (n * sizeofT % 2 ^ 64) sizeofT with
  | none => exact ⟨by simp, Nat.le_refl 0⟩
  | some p =>
      have hn : n ≠ 0 := by
        intro h0
        subst h0
        rw [Nat.zero_mul, Nat.zero_mod, guarded_alloc_zero] at hm
        exact Option.noConfusion hm
      exact ⟨by simp [hn], Nat.zero_le _⟩

theorem range_filterMap_getElem (l : List α) :
    (List.range l.length).filterMap (fun i => l[i]?) = l := by
  induction l with
  | nil => simp
  | cons a as ih =>
      rw [List.length_cons, List.range_succ_eq_map, List.filterMap_cons,
        List.filterMap_map]
      simp only [List.getElem?_cons_zero, Function.comp_def, List.getElem?_cons_succ]
      rw [ih]

theorem std_equal_eq_zip_all (beq : α → α → Bool) (as bs : List α) :
    std_equal beq as bs = (as.zip bs).all (fun p => beq p.1 p.2) := by
  induction as generalizing bs with
  | nil => simp [std_equal]
  | cons a as ih =>
      cases bs with
      | nil => simp [std_equal]
      | cons b bs => simp [std_equal, ih]

/-- C1: the claim asserts that every overflowing byte-size computation yields an
unbacked container and a null guarded_alloc result.  The code computes
max_size * sizeof(T) in wrapping 64-bit arithmetic with no overflow check, so
for sizeof(T) = 2 and n = 2 ^ 63 + 1 the product 2 ^ 64 + 2 overflows yet wraps
to 2; guarded_alloc is called with data size 2, passes every check, and (when
the OS grants the reservation) returns a non-null pointer, leaving a backed
container with max_size = 2 ^ 63 + 1.  This theorem evaluates the code at that
failing input. -/
theorem c1_multiplication_overflow_wraps :
    2 ^ 64 ≤ (2 ^ 63 + 1) * 2 ∧
    (2 ^ 63 + 1) * 2 % 2 ^ 64 = 2 ∧
    guarded_alloc osAlwaysZero ((2 ^ 63 + 1) * 2 % 2 ^ 64) 2 = some 4094 ∧
    (storage_create osAlwaysZero 2 (2 ^ 63 + 1)).memory = some 4094 ∧
    (storage_create osAlwaysZero 2 (2 ^ 63 + 1)).max_size = 2 ^ 63 + 1 := by
  decide

/-- C2: under the preconditions (backed container, size strictly below
max_size), emplace_back constructs at offset size before the size increment:
a failing construction leaves the container exactly as it was, and a
successful one appends the element, grows the size by exactly one, and the
returned pointer (slot index old size = new size - 1) refers to the new
element at the back. -/
theorem c2_emplace_back_strong_safety (v : OVec α) (b : Nat) (a : α)
    (_hm : v.memory = some b) (_hs : v.elems.length < v.max_size) :
    emplace_back v none = Except.error v ∧
    emplace_back v (some a) =
      Except.ok ({ v with elems := v.elems ++ [a] }, v.elems.length) ∧
    (v.elems ++ [a]).length = v.elems.length + 1 ∧
    (v.elems ++ [a])[v.elems.length]? = some a := by
  refine ⟨rfl, rfl, by simp, ?_⟩
  rw [List.getElem?_append_right (Nat.le_refl _)]
  simp

theorem c2_emplace_back_strong_safety_witness :
    emplace_back ({ memory := some 0, elems := [], max_size := 1 } : OVec Nat) none =
      Except.error { memory := some 0, elems := [], max_size := 1 } ∧
    emplace_back ({ memory := some 0, elems := [], max_size := 1 } : OVec Nat) (some 7) =
      Except.ok ({ memory := some 0, elems := [7], max_size := 1 }, 0) ∧
    ([7] : List Nat).length = 0 + 1 ∧
    ([7] : List Nat)[0]? = some 7 :=
  c2_emplace_back_strong_safety { memory := some 0, elems := [], max_size := 1 } 0 7
    rfl (by decide)

/-- C3: whenever guarded_alloc succeeds for a positive data size, the returned
pointer is the reservation base plus the rounding slack
rounded_data_size - data_size, so the pointer plus data_size lands exactly on
the guard boundary base + rounded_data_size: precisely data_size usable bytes
precede the guard. -/
theorem c3_guarded_alloc_pointer_offset (osAlloc : Nat → Nat → Option Nat)
    (ds gs p base : Nat) (_hds : 0 < ds)
    (h : guarded_alloc osAlloc ds gs = some p)
    (hb : osAlloc (ceil_multiple ds page_size) (ceil_multiple gs page_size) = some base) :
    p = base + (ceil_multiple ds page_size - ds) ∧
    p + ds = base + ceil_multiple ds page_size := by
  obtain ⟨-, base', hb', hp⟩ := guarded_alloc_some osAlloc ds gs p h
  rw [hb'] at hb
  injection hb with hbb
  subst hbb
  have hle := le_ceil_multiple ds page_size (by decide)
  subst hp
  exact ⟨rfl, by omega⟩

theorem c3_guarded_alloc_pointer_offset_witness :
    (4095 : Nat) = 0 + (ceil_multiple 1 page_size - 1) ∧
    (4095 : Nat) + 1 = 0 + ceil_multiple 1 page_size :=
  c3_guarded_alloc_pointer_offset osAlwaysZero 1 1 4095 0 (by decide) (by decide) rfl

/-- C4: deallocation is symmetric to allocation: for a pointer produced by a
successful guarded_alloc, guarded_dealloc with the same sizes recomputes the
same rounded sizes and the same offset, and releases exactly the original
reservation base with length rounded_data_size + rounded_guard_size. -/
theorem c4_guarded_dealloc_symmetric (osAlloc : Nat → Nat → Option Nat)
    (ds gs p base : Nat)
    (h : guarded_alloc osAlloc ds gs = some p)
    (hb : osAlloc (ceil_multiple ds page_size) (ceil_multiple gs page_size) = some base) :
    guarded_dealloc p ds gs =
      { base := base,
        length := ceil_multiple ds page_size + ceil_multiple gs page_size } := by
  obtain ⟨-, base', hb', hp⟩ := guarded_alloc_some osAlloc ds gs p h
  rw [hb'] at hb
  injection hb with hbb
  subst hbb
  subst hp
  unfold guarded_dealloc
  simp [Nat.add_sub_cancel]

theorem c4_guarded_dealloc_symmetric_witness :
    guarded_dealloc 4095 1 1 =
      { base := 0, length := ceil_multiple 1 page_size + ceil_multiple 1 page_size } :=
  c4_guarded_dealloc_symmetric osAlwaysZero 1 1 4095 0 (by decide) rfl

/-- C5: with_max_size_or_null(n) always yields size 0; it records max_size = n
exactly when the allocation succeeded and 0 (with null memory) when it did not;
and for n = 0 the allocator refuses immediately, so the container is always
unbacked. -/
theorem c5_with_max_size_or_null (osAlloc : Nat → Nat → Option Nat) (sizeofT n : Nat) :
    (storage_create osAlloc sizeofT n).size = 0 ∧
    (storage_create osAlloc sizeofT n).max_size =
      (if (storage_create osAlloc sizeofT n).memory = none then 0 else n) ∧
    (storage_create osAlloc sizeofT 0).memory = none ∧
    (storage_create osAlloc sizeofT 0).max_size = 0 := by
  refine ⟨rfl, ?_, ?_, ?_⟩
  · rw [storage_create_def]
    cases hg : guarded_alloc osAlloc (n * sizeofT % 2 ^ 64) sizeofT <;> simp
  · rw [storage_create_def]
    simp [Nat.zero_mul, guarded_alloc_zero]
  · rw [storage_create_def]
    simp [Nat.zero_mul, guarded_alloc_zero]

/-- C6: every storage state reachable through the public container operations
(default construction, with_max_size_or_null, the element operations under
their stated preconditions, move, swap) satisfies the invariant:
max_size = 0 iff the base pointer is null, and size is at most max_size. -/
theorem c6_reachable_invariant (v : Storage) (h : Reachable v) :
    storage_invariant v := by
  induction h with
  | default_ctor => exact ⟨by simp, Nat.le_refl 0⟩
  | with_max_size osAlloc sizeofT n => exact storage_create_invariant osAlloc sizeofT n
  | emplace v hv hm hs ih => exact ⟨ih.1, hs⟩
  | pop v hv hs ih => exact ⟨ih.1, Nat.le_trans (Nat.sub_le _ _) ih.2⟩
  | clear v hv ih => exact ⟨ih.1, Nat.zero_le _⟩
  | grow v n hv hn ih => exact ⟨ih.1, hn⟩
  | shrink v n hv hn ih => exact ⟨ih.1, Nat.le_trans (Nat.sub_le _ _) ih.2⟩
  | move_ctor_dst v hv ih => exact ih
  | move_ctor_src v hv ih => exact ⟨⟨fun h' => rfl, fun h' => rfl⟩, Nat.le_refl 0⟩
  | move_assign_dst d s hd hs ihd ihs => exact ihs
  | move_assign_src d s hd hs ihd ihs => exact ⟨⟨fun h' => rfl, fun h' => rfl⟩, Nat.le_refl 0⟩
  | self_move v hv ih => exact ⟨ih.1, Nat.zero_le _⟩
  | swap_left a b ha hb iha ihb => exact ihb
  | swap_right a b ha hb iha ihb => exact iha

theorem c6_reachable_invariant_witness :
    storage_invariant { memory := none, size := 0, max_size := 0 } :=
  c6_reachable_invariant { memory := none, size := 0, max_size := 0 }
    Reachable.default_ctor

/-- C7: move construction hands the new object exactly the source's base
pointer, size and max_size and resets the source to the unbacked state; move
assignment between distinct containers does the same after first clearing the
destination (its size is reset, elements destroyed) and releasing the
reservation the destination owned (the third component: the released base,
none when the destination was unbacked). -/
theorem c7_move_transfers_and_resets (d s : Storage) :
    storage_move_ctor s =
      ({ memory := s.memory, size := s.size, max_size := s.max_size },
       { memory := none, size := 0, max_size := 0 }) ∧
    ovec_move_assign d s =
      ({ memory := s.memory, size := s.size, max_size := s.max_size },
       { memory := none, size := 0, max_size := 0 }, d.memory) :=
  ⟨rfl, rfl⟩

/-- C8: on a backed container, the non-trivial clear destroys exactly the held
elements in index order 0..k-1 and resets the size to 0 while leaving memory
and max_size untouched; the trivial clear reaches the same state destroying
nothing. -/
theorem c8_clear_destroys_in_order (v : OVec α) (b : Nat) (hm : v.memory = some b) :
    (clear_impl_nontrivial v).2 = v.elems ∧
    (clear_impl_nontrivial v).1 = { v with elems := [] } ∧
    (clear_impl_nontrivial v).1.memory = v.memory ∧
    (clear_impl_nontrivial v).1.max_size = v.max_size ∧
    clear_impl_trivial v = ({ v with elems := [] }, []) := by
  have h1 : clear_impl_nontrivial v =
      ({ v with elems := [] },
       (List.range v.elems.length).filterMap (fun i => v.elems[i]?)) := by
    unfold clear_impl_nontrivial
    rw [hm]
  rw [h1]
  exact ⟨range_filterMap_getElem v.elems, rfl, rfl, rfl, rfl⟩

theorem c8_clear_destroys_in_order_witness :
    (clear_impl_nontrivial ({ memory := some 0, elems := [1, 2, 3], max_size := 5 } : OVec Nat)).2
      = [1, 2, 3] ∧
    (clear_impl_nontrivial ({ memory := some 0, elems := [1, 2, 3], max_size := 5 } : OVec Nat)).1
      = { memory := some 0, elems := [], max_size := 5 } ∧
    (clear_impl_nontrivial ({ memory := some 0, elems := [1, 2, 3], max_size := 5 } : OVec Nat)).1.memory
      = some 0 ∧
    (clear_impl_nontrivial ({ memory := some 0, elems := [1, 2, 3], max_size := 5 } : OVec Nat)).1.max_size
      = 5 ∧
    clear_impl_trivial ({ memory := some 0, elems := [1, 2, 3], max_size := 5 } : OVec Nat)
      = ({ memory := some 0, elems := [], max_size := 5 }, []) :=
  c8_clear_destroys_in_order { memory := some 0, elems := [1, 2, 3], max_size := 5 } 0 rfl

/-- C9: operator== is true exactly when the sizes agree and the elements
compare equal pairwise in insertion order; the verdict ignores the containers'
memory pointers and capacities; operator!= is its exact negation. -/
theorem c9_equality_elementwise (beq : α → α → Bool) (l r : OVec α) :
    (ovec_eq beq l r = true ↔
      l.elems.length = r.elems.length ∧
        (l.elems.zip r.elems).all (fun q => beq q.1 q.2) = true) ∧
    (∀ m₁ c₁ m₂ c₂,
      ovec_eq beq { memory := m₁, elems := l.elems, max_size := c₁ }
        { memory := m₂, elems := r.elems, max_size := c₂ } = ovec_eq beq l r) ∧
    ovec_ne beq l r = !(ovec_eq beq l r) := by
  refine ⟨?_, fun m₁ c₁ m₂ c₂ => rfl, rfl⟩
  unfold ovec_eq
  rw [std_equal_eq_zip_all]
  simp [Bool.and_eq_true, beq_iff_eq]

/-- C10: counterexample to the claim as stated.  The claim asserts that during
self-move-assignment of a backed container the deallocate step releases the
underlying reservation.  At the backed container with memory = some 5, size 3,
max_size 10, the deallocate step releases nothing (the by-value inlined_move
had already nulled the memory field), and the temporary's destructor releases
nothing either: no release of base 5 ever happens. -/
theorem c10_self_move_release_counterexample :
    (ovec_self_move_assign { memory := some 5, size := 3, max_size := 10 }).2.1 = none ∧
    ¬ (ovec_self_move_assign { memory := some 5, size := 3, max_size := 10 }).2.1 = some 5 ∧
    (ovec_self_move_assign { memory := some 5, size := 3, max_size := 10 }).2.2 = none := by
  decide

/-- C10 (amended): self-move-assignment of a backed container does not unback
it: clear resets the size, then inlined_move's by-value return materializes a
temporary that takes the storage's fields and nulls them, so the storage
move-assignment's deallocate step sees a null pointer and releases nothing; the
exchanges from the temporary then restore the memory pointer to its prior
non-null value and max_size to its prior non-zero value, with size 0.  The
reservation is never released (neither by deallocate nor by the temporary's
destructor) and remains owned by the container. -/
theorem c10_self_move_not_unbacked (v : Storage) (b : Nat)
    (hm : v.memory = some b) (hx : v.max_size ≠ 0) :
    ovec_self_move_assign v =
      ({ memory := some b, size := 0, max_size := v.max_size }, none, none) ∧
    (ovec_self_move_assign v).1.memory ≠ none ∧
    (ovec_self_move_assign v).1.max_size ≠ 0 := by
  have h1 : ovec_self_move_assign v =
      ({ memory := v.memory, size := 0, max_size := v.max_size }, none, none) := rfl
  rw [h1, hm]
  exact ⟨rfl, by simp, hx⟩

theorem c10_self_move_not_unbacked_witness :
    ovec_self_move_assign { memory := some 5, size := 3, max_size := 10 } =
      ({ memory := some 5, size := 0, max_size := 10 }, none, none) ∧
    (ovec_self_move_assign { memory := some 5, size := 3, max_size := 10 }).1.memory ≠ none ∧
    (ovec_self_move_assign { memory := some 5, size := 3, max_size := 10 }).1.max_size ≠ 0 :=
  c10_self_move_not_unbacked { memory := some 5, size := 3, max_size := 10 } 5 rfl
    (by decide)

end OVector
